import Mathlib

/-!
Verification of the derived-state consistency and availability-overlap logic
of a hotel-booking / movie-review CRUD service.

The embedding models the two Python modules `bookings/main.py` and
`movie-review/movie_review_api.py`:
  * JSON-backed collections become Lean lists of records;
  * Python floats (prices, ratings) become `ℚ`;
  * `datetime.date` values become `Int` day numbers, so that
    `(check_out - check_in).days` is plain integer subtraction;
  * `datetime` timestamps become opaque `Int` values;
  * endpoints that can raise `HTTPException` become functions into
    `Except String _`, returning the error detail string.
Each definition is a direct translation of the corresponding Python
function; definitions whose doc comment says "From the spec's words"
are the spec-side counterparts used for refinement comparison.
-/

/-! ## Data model: bookings service -/

/-- `RoomTypeEnum` from `bookings/main.py`. -/
inductive RoomType where
  | single | double | suite | deluxe | presidential
deriving DecidableEq, Repr

/-- `BookingStatusEnum` from `bookings/main.py`. -/
inductive BookingStatus where
  | pending | confirmed | checked_in | checked_out | cancelled
deriving DecidableEq, Repr

/-- The `Room` model. -/
structure Room where
  id : Int
  room_number : String
  room_type : RoomType
  price_per_night : ℚ
  capacity : Int
  amenities : List String
  is_available : Bool
  description : String
deriving DecidableEq, Repr

/-- The `Booking` model. -/
structure Booking where
  id : Int
  room_id : Int
  guest_name : String
  guest_email : String
  check_in_date : Int
  check_out_date : Int
  num_guests : Int
  total_price : ℚ
  status : BookingStatus
  created_at : Int
  special_requests : Option String
deriving DecidableEq, Repr

/-- The `BookingCreate` request model (validated fields only; the pydantic
validators are not needed by any claim proved here). -/
structure BookingCreate where
  room_id : Int
  guest_name : String
  guest_email : String
  check_in_date : Int
  check_out_date : Int
  num_guests : Int
  special_requests : Option String
deriving DecidableEq, Repr

/-- The whole persistent state of the bookings service: the contents of
`rooms.json` and `bookings.json`. -/
structure HState where
  rooms : List Room
  bookings : List Booking
deriving DecidableEq, Repr

/-- Error message constants from `bookings/main.py`. -/
def ROOM_NOT_FOUND_MESSAGE : String := "Room not found"

def BOOKING_NOT_FOUND_MESSAGE : String := "Booking not found"

def ROOM_NOT_AVAILABLE_MESSAGE : String := "Room not available for the selected dates"

/-- `get_room_by_id`: first room whose `id` matches. -/
def get_room_by_id (rooms : List Room) (room_id : Int) : Option Room :=
  rooms.find? (fun r => r.id == room_id)

/-- Python's `if exclude_booking_id and booking["id"] == exclude_booking_id`:
the guard is true only when `exclude_booking_id` is truthy (present and
nonzero, since `0` is falsy in Python) and equal to the booking id. -/
def excludeMatches : Option Int → Int → Bool
  | none, _ => false
  | some e, bid => e != 0 && bid == e

/-- `check_room_availability` from `bookings/main.py`: scan all bookings and
report `false` on the first conflicting one.  The early return on a conflict
is equivalent to `List.all` of the per-booking "skip" condition. -/
def check_room_availability (bookings : List Booking) (room_id : Int)
    (check_in check_out : Int) (exclude_booking_id : Option Int) : Bool :=
  bookings.all fun booking =>
    excludeMatches exclude_booking_id booking.id ||
    booking.status == BookingStatus.cancelled ||
    booking.room_id != room_id ||
    (decide (check_out ≤ booking.check_in_date) ||
     decide (check_in ≥ booking.check_out_date))

/-- `calculate_total_price` from `bookings/main.py`. -/
def calculate_total_price (rooms : List Room) (room_id : Int)
    (check_in check_out : Int) : ℚ :=
  match get_room_by_id rooms room_id with
  | none => 0
  | some room => room.price_per_night * ((check_out - check_in : Int) : ℚ)

/-- Python's `max(xs, default=0)`. -/
def maxId : List Int → Int
  | [] => 0
  | x :: xs => xs.foldl max x

/-- `create_booking` (`POST /bookings`): validate the room, check
availability and capacity, then append the new booking with a fresh id,
the computed price, status `pending` and the current timestamp. -/
def create_booking (st : HState) (bc : BookingCreate) (now : Int) :
    Except String HState :=
  match get_room_by_id st.rooms bc.room_id with
  | none => .error ("Room with ID " ++ toString bc.room_id ++ " not found")
  | some room =>
    if !check_room_availability st.bookings bc.room_id bc.check_in_date
        bc.check_out_date none then
      .error ROOM_NOT_AVAILABLE_MESSAGE
    else if bc.num_guests > room.capacity then
      .error "Room capacity exceeded"
    else
      let booking_id := maxId (st.bookings.map (·.id)) + 1
      let total_price := calculate_total_price st.rooms bc.room_id
        bc.check_in_date bc.check_out_date
      .ok { st with bookings := st.bookings ++
            [{ id := booking_id
               room_id := bc.room_id
               guest_name := bc.guest_name
               guest_email := bc.guest_email
               check_in_date := bc.check_in_date
               check_out_date := bc.check_out_date
               num_guests := bc.num_guests
               total_price := total_price
               status := BookingStatus.pending
               created_at := now
               special_requests := bc.special_requests }] }

/-- Replace the first booking whose id matches (Python's
`for booking in bookings: if booking["id"] == booking_id: ...; return`). -/
def setFirstBookingById (bid : Int) (f : Booking → Booking) :
    List Booking → List Booking
  | [] => []
  | b :: bs =>
    if b.id = bid then f b :: bs else b :: setFirstBookingById bid f bs

/-- `update_booking` (`PUT /bookings/{id}`): validate the room, locate the
booking, re-check availability excluding this booking, check capacity, then
overwrite the guest/date fields, preserving id, status and `created_at` and
recomputing `total_price`. -/
def update_booking (st : HState) (booking_id : Int) (bc : BookingCreate) :
    Except String HState :=
  match get_room_by_id st.rooms bc.room_id with
  | none => .error ("Room with ID " ++ toString bc.room_id ++ " not found")
  | some room =>
    if st.bookings.any (fun b => b.id == booking_id) then
      if !check_room_availability st.bookings bc.room_id bc.check_in_date
          bc.check_out_date (some booking_id) then
        .error ROOM_NOT_AVAILABLE_MESSAGE
      else if bc.num_guests > room.capacity then
        .error "Room capacity exceeded"
      else
        let total_price := calculate_total_price st.rooms bc.room_id
          bc.check_in_date bc.check_out_date
        let f : Booking → Booking := fun b =>
          { id := booking_id
            room_id := bc.room_id
            guest_name := bc.guest_name
            guest_email := bc.guest_email
            check_in_date := bc.check_in_date
            check_out_date := bc.check_out_date
            num_guests := bc.num_guests
            total_price := total_price
            status := b.status
            created_at := b.created_at
            special_requests := bc.special_requests }
        .ok { st with bookings := setFirstBookingById booking_id f st.bookings }
    else .error BOOKING_NOT_FOUND_MESSAGE

/-- `update_booking_status` (`PUT /bookings/{id}/status`): set the status of
the first matching booking, with no transition or availability check. -/
def update_booking_status (st : HState) (booking_id : Int)
    (new_status : BookingStatus) : Except String HState :=
  if st.bookings.any (fun b => b.id == booking_id) then
    let f : Booking → Booking := fun b => { b with status := new_status }
    .ok { st with bookings := setFirstBookingById booking_id f st.bookings }
  else .error BOOKING_NOT_FOUND_MESSAGE

/-- Remove the first room whose id matches. -/
def removeFirstRoomById (rid : Int) : List Room → List Room
  | [] => []
  | r :: rs => if r.id = rid then rs else r :: removeFirstRoomById rid rs

/-- The per-booking cascade of `delete_room`: flip the status of a
non-cancelled booking of the deleted room to `cancelled`. -/
def cancelIfRoom (rid : Int) (b : Booking) : Booking :=
  if b.room_id = rid ∧ b.status ≠ BookingStatus.cancelled then
    { b with status := BookingStatus.cancelled }
  else b

/-- `delete_room` (`DELETE /rooms/{id}`): remove the room and cancel all of
its non-cancelled bookings; bookings are retained, never removed. -/
def delete_room (st : HState) (room_id : Int) : Except String HState :=
  if st.rooms.any (fun r => r.id == room_id) then
    .ok { rooms := removeFirstRoomById room_id st.rooms
          bookings := st.bookings.map (cancelIfRoom room_id) }
  else .error ROOM_NOT_FOUND_MESSAGE

/-! ## Operations and invariant for the bookings service -/

/-- The four mutating operations named by the overlap-invariant claim. -/
inductive Op where
  | createBooking (bc : BookingCreate) (now : Int)
  | updateBooking (booking_id : Int) (bc : BookingCreate)
  | updateBookingStatus (booking_id : Int) (new_status : BookingStatus)
  | deleteRoom (room_id : Int)
deriving DecidableEq, Repr

/-- Run one endpoint, propagating the error result. -/
def runOp (st : HState) : Op → Except String HState
  | .createBooking bc now => create_booking st bc now
  | .updateBooking bid bc => update_booking st bid bc
  | .updateBookingStatus bid s => update_booking_status st bid s
  | .deleteRoom rid => delete_room st rid

/-- Run one endpoint; a rejected request leaves the stored state unchanged
(the Python code raises before any `save_data_to_json`). -/
def step (st : HState) (op : Op) : HState :=
  match runOp st op with
  | .ok st' => st'
  | .error _ => st

/-- Run a sequence of operations. -/
def execOps (st : HState) : List Op → HState
  | [] => st
  | op :: ops => execOps (step st op) ops

/-- Half-open interval disjointness `b <= c or a >= d` for `[a,b)`, `[c,d)`. -/
def datesDisjoint (ci co ci' co' : Int) : Bool :=
  decide (co ≤ ci') || decide (ci ≥ co')

/-- Two bookings are compatible when at least one is cancelled, they are on
different rooms, or their date intervals are disjoint. -/
def compatB (b1 b2 : Booking) : Bool :=
  b1.status == BookingStatus.cancelled ||
  b2.status == BookingStatus.cancelled ||
  b1.room_id != b2.room_id ||
  datesDisjoint b1.check_in_date b1.check_out_date
    b2.check_in_date b2.check_out_date

/-- The overlap invariant: all pairs of distinct bookings are compatible. -/
def noOverlapB : List Booking → Bool
  | [] => true
  | b :: bs => bs.all (compatB b) && noOverlapB bs

/-- Pairwise distinctness of a list of ids. -/
def idsNodupB : List Int → Bool
  | [] => true
  | x :: xs => xs.all (fun y => y != x) && idsNodupB xs

/-- The inductive invariant: no two distinct bookings overlap, and booking
ids are pairwise distinct. -/
def goodStateB (st : HState) : Bool :=
  noOverlapB st.bookings && idsNodupB (st.bookings.map (·.id))

/-- A status update is harmless when it cancels, or when its target booking
is not currently cancelled (so it cannot revive a cancelled booking into an
active overlap). -/
def okStatusOpB (st : HState) : Op → Bool
  | .updateBookingStatus bid s =>
    s == BookingStatus.cancelled ||
    st.bookings.all (fun b => b.id != bid || b.status != BookingStatus.cancelled)
  | _ => true

/-- A trace is safe when each status update in it is harmless at the state
where it runs. -/
def safeOpsB (st : HState) : List Op → Bool
  | [] => true
  | op :: ops => okStatusOpB st op && safeOpsB (step st op) ops

deriving instance DecidableEq for Except

/-! ## Data model: movie-review service -/

/-- `GenreEnum` from `movie_review_api.py`. -/
inductive Genre where
  | action | comedy | drama | horror | romance
  | thriller | fantasy | science_fiction | documentary | animation
deriving DecidableEq, Repr

/-- The `Movie` model; `rating` and `review_count` are the derived fields. -/
structure Movie where
  id : Int
  title : String
  description : String
  genre : Genre
  release_year : Int
  director : String
  duration_minutes : Int
  rating : Option ℚ
  review_count : Option Nat
deriving DecidableEq, Repr

/-- The `Review` model. -/
structure Review where
  id : Int
  movie_id : Int
  reviewer_name : String
  rating : ℚ
  comment : String
  created_at : Int
deriving DecidableEq, Repr

/-- The `ReviewCreate` request model. -/
structure ReviewCreate where
  movie_id : Int
  reviewer_name : String
  rating : ℚ
  comment : String
deriving DecidableEq, Repr

/-- The whole persistent state of the movie-review service: the contents of
`movies.json` and `reviews.json`. -/
structure MState where
  movies : List Movie
  reviews : List Review
deriving DecidableEq, Repr

/-- Error message constants from `movie_review_api.py`. -/
def MOVIE_NOT_FOUND_MESSAGE : String := "Movie not found"

def REVIEW_NOT_FOUND_MESSAGE : String := "Review not found"

/-- Python's built-in `round` on an exact value: nearest integer, ties to
even (banker's rounding). -/
def pyRound (q : ℚ) : ℤ :=
  if q - ⌊q⌋ < 1 / 2 then ⌊q⌋
  else if q - ⌊q⌋ > 1 / 2 then ⌊q⌋ + 1
  else if ⌊q⌋ % 2 = 0 then ⌊q⌋ else ⌊q⌋ + 1

/-- Python's `round(x, 2)`: round to 2 decimal places. -/
def pyRound2 (q : ℚ) : ℚ := (pyRound (q * 100) : ℚ) / 100

/-- `get_movie_by_id`: first movie whose `id` matches. -/
def get_movie_by_id (movies : List Movie) (movie_id : Int) : Option Movie :=
  movies.find? (fun m => m.id == movie_id)

/-- `calculate_movie_stats`: filter the reviews of the movie; `(None, 0)`
when there are none, otherwise the rounded mean rating and the count. -/
def calculate_movie_stats (reviews : List Review) (movie_id : Int) :
    Option ℚ × Nat :=
  let movie_reviews := reviews.filter (fun r => r.movie_id == movie_id)
  if movie_reviews.isEmpty then (none, 0)
  else
    (some (pyRound2 ((movie_reviews.map (·.rating)).sum /
        (movie_reviews.length : ℚ))),
     movie_reviews.length)

/-- `update_movie_stats`: write the freshly computed stats onto the first
movie whose id matches and stop (`break`); a silent no-op when the movie id
is absent. -/
def update_movie_stats (movies : List Movie) (reviews : List Review)
    (movie_id : Int) : List Movie :=
  match movies with
  | [] => []
  | m :: ms =>
    if m.id = movie_id then
      { m with rating := (calculate_movie_stats reviews movie_id).1
               review_count := some (calculate_movie_stats reviews movie_id).2 } :: ms
    else m :: update_movie_stats ms reviews movie_id

/-- `create_review` (`POST /reviews`): validate the movie, append the new
review with a fresh id, then recompute the movie's statistics. -/
def create_review (st : MState) (rc : ReviewCreate) (now : Int) :
    Except String MState :=
  match get_movie_by_id st.movies rc.movie_id with
  | none => .error ("Movie with ID " ++ toString rc.movie_id ++ " not found")
  | some _ =>
    let review_id := maxId (st.reviews.map (·.id)) + 1
    let reviews' := st.reviews ++
      [{ id := review_id
         movie_id := rc.movie_id
         reviewer_name := rc.reviewer_name
         rating := rc.rating
         comment := rc.comment
         created_at := now }]
    .ok { movies := update_movie_stats st.movies reviews' rc.movie_id
          reviews := reviews' }

/-- Replace the first review whose id matches. -/
def setFirstReviewById (rid : Int) (f : Review → Review) :
    List Review → List Review
  | [] => []
  | r :: rs =>
    if r.id = rid then f r :: rs else r :: setFirstReviewById rid f rs

/-- The field overwrite performed by `update_review`: replace the review's
fields from the request, preserving `id` and `created_at`. -/
def applyReviewUpdate (rc : ReviewCreate) (r0 : Review) : Review :=
  { id := r0.id
    movie_id := rc.movie_id
    reviewer_name := rc.reviewer_name
    rating := rc.rating
    comment := rc.comment
    created_at := r0.created_at }

/-- `update_review` (`PUT /reviews/{id}`): validate the (new) movie, locate
the review, overwrite its fields preserving id and `created_at`, then
recompute statistics for the old movie and, if the movie association
changed, also for the new one. -/
def update_review (st : MState) (review_id : Int) (rc : ReviewCreate) :
    Except String MState :=
  match get_movie_by_id st.movies rc.movie_id with
  | none => .error ("Movie with ID " ++ toString rc.movie_id ++ " not found")
  | some _ =>
    match st.reviews.find? (fun r => r.id == review_id) with
    | none => .error REVIEW_NOT_FOUND_MESSAGE
    | some r =>
      let old_movie_id := r.movie_id
      let reviews' := setFirstReviewById review_id (applyReviewUpdate rc)
        st.reviews
      let movies1 := update_movie_stats st.movies reviews' old_movie_id
      let movies2 :=
        if old_movie_id ≠ rc.movie_id then
          update_movie_stats movies1 reviews' rc.movie_id
        else movies1
      .ok { movies := movies2, reviews := reviews' }

/-- Remove the first review whose id matches (Python's `reviews.remove`). -/
def removeFirstReviewById (rid : Int) : List Review → List Review
  | [] => []
  | r :: rs => if r.id = rid then rs else r :: removeFirstReviewById rid rs

/-- `delete_review` (`DELETE /reviews/{id}`): remove the review, then
recompute its movie's statistics. -/
def delete_review (st : MState) (review_id : Int) : Except String MState :=
  match st.reviews.find? (fun r => r.id == review_id) with
  | none => .error REVIEW_NOT_FOUND_MESSAGE
  | some r =>
    let reviews' := removeFirstReviewById review_id st.reviews
    .ok { movies := update_movie_stats st.movies reviews' r.movie_id
          reviews := reviews' }

/-! ## Operations and invariant for the movie-review service -/

/-- The three review operations named by the statistics-invariant claim. -/
inductive MOp where
  | createReview (rc : ReviewCreate) (now : Int)
  | updateReview (review_id : Int) (rc : ReviewCreate)
  | deleteReview (review_id : Int)
deriving DecidableEq, Repr

/-- Run one review endpoint, propagating the error result. -/
def mrunOp (st : MState) : MOp → Except String MState
  | .createReview rc now => create_review st rc now
  | .updateReview rid rc => update_review st rid rc
  | .deleteReview rid => delete_review st rid

/-- Run one review endpoint; a rejected request leaves the state unchanged. -/
def mstep (st : MState) (op : MOp) : MState :=
  match mrunOp st op with
  | .ok st' => st'
  | .error _ => st

/-- Run a sequence of review operations. -/
def mexecOps (st : MState) : List MOp → MState
  | [] => st
  | op :: ops => mexecOps (mstep st op) ops

/-- One movie's stored stats agree with the aggregate of its reviews. -/
def statsOKB (reviews : List Review) (m : Movie) : Bool :=
  m.rating == (calculate_movie_stats reviews m.id).1 &&
  m.review_count == some (calculate_movie_stats reviews m.id).2

/-- The derived-statistics invariant: every stored movie's `rating` and
`review_count` equal the aggregate of that movie's current reviews. -/
def statsInvB (st : MState) : Bool :=
  st.movies.all (statsOKB st.reviews)

/-- Pairwise distinctness of the stored movie ids. -/
def movieIdsNodupB (st : MState) : Bool :=
  idsNodupB (st.movies.map (·.id))

/-! ## Spec-side predicates (for refinement comparison) -/

/-- From the spec's words: the availability check "skips the booking
identified by `excludeBookingId`" and cancelled bookings, and reports
available iff no remaining booking of the room overlaps `[ci, co)` under
the half-open rule (overlap unless `b <= c or a >= d`). -/
def specAvailableClaimed (bookings : List Booking) (room_id ci co : Int)
    (exclude : Option Int) : Prop :=
  ∀ b ∈ bookings, b.room_id = room_id → b.status ≠ BookingStatus.cancelled →
    exclude ≠ some b.id →
    (co ≤ b.check_in_date ∨ ci ≥ b.check_out_date)

/-- The amended availability predicate: exclusion only takes effect for a
nonzero `excludeBookingId` (the code treats `0` like "no exclusion"). -/
def specAvailableAmended (bookings : List Booking) (room_id ci co : Int)
    (exclude : Option Int) : Prop :=
  ∀ b ∈ bookings, b.room_id = room_id → b.status ≠ BookingStatus.cancelled →
    (∀ e, exclude = some e → e = 0 ∨ b.id ≠ e) →
    (co ≤ b.check_in_date ∨ ci ≥ b.check_out_date)

/-! ## Concrete records used by witnesses and counterexamples -/

/-- A sample room: id 1, priced 100 per night, capacity 2. -/
def sampleRoom : Room :=
  ⟨1, "101", .single, 100, 2, [], true, "A nice single room"⟩

/-- A second sample room with id 2. -/
def sampleRoom2 : Room :=
  ⟨2, "102", .double, 80, 4, [], true, "A nice double room"⟩

/-- An active (pending) booking of room 1 over `[0, 2)`. -/
def bookingA : Booking :=
  ⟨1, 1, "Alice Smith", "alice@mail.com", 0, 2, 1, 200, .pending, 0, none⟩

/-- A cancelled booking of room 1 over the same `[0, 2)` interval. -/
def bookingCancelled : Booking :=
  ⟨2, 1, "Bob Jones", "bob@mail.com", 0, 2, 1, 200, .cancelled, 0, none⟩

/-- An active (confirmed) booking of room 1 over `[5, 7)`. -/
def bookingB : Booking :=
  ⟨3, 1, "Cara Dune", "cara@mail.com", 5, 7, 2, 200, .confirmed, 0, none⟩

/-- An active booking of a different room (room 2). -/
def bookingOtherRoom : Booking :=
  ⟨4, 2, "Dan Brown", "dan@mail.com", 0, 2, 1, 160, .pending, 0, none⟩

/-- A pending booking whose id is 0 — admissible data, but Python's
truthiness guard can never exclude it. -/
def bookingIdZero : Booking :=
  ⟨0, 1, "Zed Zero", "zed@mail.com", 0, 2, 1, 200, .pending, 0, none⟩

/-- A movie with no reviews and correctly zeroed stats. -/
def movieOne : Movie :=
  ⟨1, "The Matrix", "A classic science fiction movie.", .science_fiction,
   1999, "Wachowski", 136, none, some 0⟩

/-- A duplicate record carrying the same movie id 1. -/
def movieOneDup : Movie :=
  ⟨1, "The Matrix", "A classic science fiction movie.", .science_fiction,
   1999, "Wachowski", 136, none, some 0⟩

/-- A second movie with id 2 and no reviews. -/
def movieTwo : Movie :=
  ⟨2, "Spirited Away", "An animated fantasy adventure.", .animation,
   2001, "Miyazaki", 125, none, some 0⟩

/-- A review of movie 1 rated 9. -/
def reviewNine : Review :=
  ⟨1, 1, "Neo Anderson", 9, "Great movie, loved it.", 0⟩

/-- A review of movie 1 rated 7. -/
def reviewSeven : Review :=
  ⟨2, 1, "Trin Moss", 7, "Pretty good overall.", 0⟩

/-- A review-create request for movie 1 rated 5. -/
def sampleReviewCreate : ReviewCreate :=
  ⟨1, "Morpheus Lee", 5, "It was decent enough."⟩

/-- A booking-create request for room 1 over `[10, 13)`. -/
def sampleBookingCreate : BookingCreate :=
  ⟨1, "Eve Adams", "eve@mail.com", 10, 13, 1, none⟩

/-! ## Helper lemmas -/

theorem pyRound_intCast (n : ℤ) : pyRound ((n : ℤ) : ℚ) = n := by
  simp [pyRound]

theorem pyRound2_eq_of_mul_eq (q : ℚ) (n : ℤ) (h : q * 100 = ((n : ℤ) : ℚ)) :
    pyRound2 q = ((n : ℤ) : ℚ) / 100 := by
  rw [pyRound2, h, pyRound_intCast]

theorem setFirstBookingById_append (bid : Int) (f : Booking → Booking)
    (pre : List Booking) (b : Booking) (post : List Booking)
    (hpre : ∀ x ∈ pre, x.id ≠ bid) (hb : b.id = bid) :
    setFirstBookingById bid f (pre ++ b :: post) = pre ++ f b :: post := by
  induction pre with
  | nil => simp [setFirstBookingById, hb]
  | cons x xs ih =>
    have hx : x.id ≠ bid := hpre x (List.mem_cons_self x xs)
    have ih' := ih (fun y hy => hpre y (List.mem_cons_of_mem x hy))
    simp [setFirstBookingById, hx, ih']

/-! ## Claim theorems -/

/-- Claim C10: recomputing statistics for a movie id that is absent from the
movie collection is a silent no-op: `update_movie_stats` is total (raises
nothing) and returns the collection unchanged. -/
theorem update_movie_stats_missing_id_noop (movies : List Movie)
    (reviews : List Review) (movie_id : Int)
    (h : movie_id ∉ movies.map Movie.id) :
    update_movie_stats movies reviews movie_id = movies := by
  induction movies with
  | nil => rfl
  | cons m ms ih =>
    simp only [List.map_cons, List.mem_cons] at h
    push_neg at h
    simp only [update_movie_stats, if_neg (fun hm : m.id = movie_id => h.1 hm.symm)]
    rw [ih h.2]

/-- Witness for C10 at a concrete input: movie id 5 is absent, and the
recomputation leaves the collection `[movieOne]` unchanged. -/
theorem update_movie_stats_missing_id_noop_witness :
    (5 : Int) ∉ ([movieOne].map Movie.id) ∧
    update_movie_stats [movieOne] [] 5 = [movieOne] :=
  ⟨by decide, update_movie_stats_missing_id_noop [movieOne] [] 5 (by decide)⟩

/-- Claim C7: the price calculator returns 0 when the room is missing and
otherwise `nights * price_per_night` with `nights = check_out - check_in`;
in particular a room at 100 per night over a 3-night stay costs 300. -/
theorem calculate_total_price_spec (rooms : List Room)
    (room_id check_in check_out : Int) (_hgt : check_in < check_out) :
    (get_room_by_id rooms room_id = none →
      calculate_total_price rooms room_id check_in check_out = 0) ∧
    (∀ room, get_room_by_id rooms room_id = some room →
      calculate_total_price rooms room_id check_in check_out =
        ((check_out - check_in : Int) : ℚ) * room.price_per_night) ∧
    calculate_total_price [sampleRoom] 1 0 3 = 300 := by
  refine ⟨fun h => ?_, fun room h => ?_, ?_⟩
  · simp [calculate_total_price, h]
  · simp [calculate_total_price, h, mul_comm]
  · show calculate_total_price [sampleRoom] 1 0 3 = 300
    simp [calculate_total_price, get_room_by_id, sampleRoom, List.find?]
    norm_num

/-- Witness for C7: the theorem applied at a concrete room list and dates. -/
theorem calculate_total_price_spec_witness :
    (0 : Int) < 3 ∧
    ((get_room_by_id [sampleRoom2] 1 = none →
        calculate_total_price [sampleRoom2] 1 0 3 = 0) ∧
     (∀ room, get_room_by_id [sampleRoom2] 1 = some room →
        calculate_total_price [sampleRoom2] 1 0 3 =
          ((3 - 0 : Int) : ℚ) * room.price_per_night) ∧
     calculate_total_price [sampleRoom] 1 0 3 = 300) :=
  ⟨by decide, calculate_total_price_spec [sampleRoom2] 1 0 3 (by decide)⟩

/-- Claim C4: the computed statistics are `(null, 0)` for a movie with no
reviews, and otherwise the mean rating rounded to 2 decimal places together
with the review count; in particular reviews rated 9 and 7 yield rating 8
and count 2. -/
theorem calculate_movie_stats_spec (reviews : List Review) (movie_id : Int) :
    (reviews.filter (fun r => r.movie_id == movie_id) = [] →
      calculate_movie_stats reviews movie_id = (none, 0)) ∧
    (∀ mr, reviews.filter (fun r => r.movie_id == movie_id) = mr → mr ≠ [] →
      calculate_movie_stats reviews movie_id =
        (some (pyRound2 ((mr.map Review.rating).sum / (mr.length : ℚ))),
         mr.length)) ∧
    calculate_movie_stats [reviewNine, reviewSeven] 1 = (some 8, 2) := by
  refine ⟨fun h => ?_, fun mr hmr hne => ?_, ?_⟩
  · simp [calculate_movie_stats, h]
  · have hne' : mr.isEmpty = false := by
      cases mr with
      | nil => exact absurd rfl hne
      | cons a l => rfl
    simp [calculate_movie_stats, hmr, hne']
  · have h800 : (8 : ℚ) * 100 = ((800 : ℤ) : ℚ) := by norm_num
    have hval := pyRound2_eq_of_mul_eq 8 800 h800
    simp [calculate_movie_stats, reviewNine, reviewSeven]
    norm_num [hval]

/-- Witness for C4: the theorem applied at concrete review lists. -/
theorem calculate_movie_stats_spec_witness :
    calculate_movie_stats [] 1 = (none, 0) ∧
    calculate_movie_stats [reviewNine, reviewSeven] 1 =
      (some (pyRound2 ((([reviewNine, reviewSeven].map Review.rating).sum /
          (([reviewNine, reviewSeven] : List Review).length : ℚ)))),
       ([reviewNine, reviewSeven] : List Review).length) ∧
    calculate_movie_stats [reviewNine, reviewSeven] 1 = (some 8, 2) :=
  ⟨(calculate_movie_stats_spec [] 1).1 (by decide),
   (calculate_movie_stats_spec [reviewNine, reviewSeven] 1).2.1
     [reviewNine, reviewSeven] (by decide) (by decide),
   (calculate_movie_stats_spec [reviewNine, reviewSeven] 1).2.2⟩

/-- Claim C8: for a movie id present in the collection, recomputing its
statistics rewrites only the `rating` and `review_count` fields of that
movie's record; all its other fields and every other record are unchanged. -/
theorem update_movie_stats_frame (pre : List Movie) (m : Movie)
    (post : List Movie) (reviews : List Review) (movie_id : Int)
    (hpre : ∀ x ∈ pre, x.id ≠ movie_id) (hm : m.id = movie_id) :
    update_movie_stats (pre ++ m :: post) reviews movie_id =
      pre ++
        { id := m.id
          title := m.title
          description := m.description
          genre := m.genre
          release_year := m.release_year
          director := m.director
          duration_minutes := m.duration_minutes
          rating := (calculate_movie_stats reviews movie_id).1
          review_count := some (calculate_movie_stats reviews movie_id).2 } ::
        post := by
  induction pre with
  | nil => simp [update_movie_stats, hm]
  | cons x xs ih =>
    have hx : x.id ≠ movie_id := hpre x (List.mem_cons_self x xs)
    have ih' := ih (fun y hy => hpre y (List.mem_cons_of_mem x hy))
    simp [update_movie_stats, hx, ih']

/-- Witness for C8: recomputing stats of movie 1 in `[movieTwo, movieOne]`
touches only the stats fields of `movieOne`. -/
theorem update_movie_stats_frame_witness :
    update_movie_stats ([movieTwo] ++ movieOne :: []) [] 1 =
      [movieTwo] ++
        { id := movieOne.id
          title := movieOne.title
          description := movieOne.description
          genre := movieOne.genre
          release_year := movieOne.release_year
          director := movieOne.director
          duration_minutes := movieOne.duration_minutes
          rating := (calculate_movie_stats [] 1).1
          review_count := some (calculate_movie_stats [] 1).2 } :: [] :=
  update_movie_stats_frame [movieTwo] movieOne [] [] 1 (by decide) (by decide)

/-- Claim C5: deleting an existing room succeeds and rewrites the booking
collection pointwise: every non-cancelled booking of that room becomes
`cancelled` (all other fields kept), every other booking is untouched, and
no booking is removed. -/
theorem delete_room_cancels_exactly_active (st : HState) (room_id : Int)
    (hex : st.rooms.any (fun r => r.id == room_id) = true) :
    ∃ st', delete_room st room_id = Except.ok st' ∧
      st'.bookings = st.bookings.map (cancelIfRoom room_id) ∧
      st'.bookings.length = st.bookings.length ∧
      (∀ b : Booking, b.room_id = room_id → b.status ≠ BookingStatus.cancelled →
        cancelIfRoom room_id b = { b with status := BookingStatus.cancelled }) ∧
      (∀ b : Booking, ¬(b.room_id = room_id ∧ b.status ≠ BookingStatus.cancelled) →
        cancelIfRoom room_id b = b) := by
  refine ⟨{ rooms := removeFirstRoomById room_id st.rooms,
            bookings := st.bookings.map (cancelIfRoom room_id) },
          ?_, rfl, by simp, fun b h1 h2 => ?_, fun b h => ?_⟩
  · simp [delete_room, hex]
  · rw [cancelIfRoom, if_pos ⟨h1, h2⟩]
  · rw [cancelIfRoom, if_neg h]

/-- Witness for C5: deleting room 1 with two active bookings and one
already-cancelled booking. -/
theorem delete_room_cancels_exactly_active_witness :
    ∃ st', delete_room ⟨[sampleRoom], [bookingA, bookingB, bookingCancelled,
        bookingOtherRoom]⟩ 1 = Except.ok st' ∧
      st'.bookings = [bookingA, bookingB, bookingCancelled,
        bookingOtherRoom].map (cancelIfRoom 1) ∧
      st'.bookings.length = ([bookingA, bookingB, bookingCancelled,
        bookingOtherRoom] : List Booking).length ∧
      (∀ b : Booking, b.room_id = 1 → b.status ≠ BookingStatus.cancelled →
        cancelIfRoom 1 b = { b with status := BookingStatus.cancelled }) ∧
      (∀ b : Booking, ¬(b.room_id = 1 ∧ b.status ≠ BookingStatus.cancelled) →
        cancelIfRoom 1 b = b) :=
  delete_room_cancels_exactly_active
    ⟨[sampleRoom], [bookingA, bookingB, bookingCancelled, bookingOtherRoom]⟩ 1
    (by decide)

/-- Claim C6: an operation that references a missing parent entity (booking
create/update on a missing room, review create/update on a missing movie)
returns an identifiable error and leaves the state completely unchanged. -/
theorem missing_parent_rejects_without_mutation
    (hst : HState) (bc bc2 : BookingCreate) (now : Int) (bid : Int)
    (mst : MState) (rc rc2 : ReviewCreate) (now2 : Int) (rid : Int)
    (h1 : get_room_by_id hst.rooms bc.room_id = none)
    (h2 : get_room_by_id hst.rooms bc2.room_id = none)
    (h3 : get_movie_by_id mst.movies rc.movie_id = none)
    (h4 : get_movie_by_id mst.movies rc2.movie_id = none) :
    create_booking hst bc now =
      .error ("Room with ID " ++ toString bc.room_id ++ " not found") ∧
    step hst (.createBooking bc now) = hst ∧
    update_booking hst bid bc2 =
      .error ("Room with ID " ++ toString bc2.room_id ++ " not found") ∧
    step hst (.updateBooking bid bc2) = hst ∧
    create_review mst rc now2 =
      .error ("Movie with ID " ++ toString rc.movie_id ++ " not found") ∧
    mstep mst (.createReview rc now2) = mst ∧
    update_review mst rid rc2 =
      .error ("Movie with ID " ++ toString rc2.movie_id ++ " not found") ∧
    mstep mst (.updateReview rid rc2) = mst := by
  refine ⟨?_, ?_, ?_, ?_, ?_, ?_, ?_, ?_⟩ <;>
    simp [create_booking, update_booking, create_review, update_review,
      step, mstep, runOp, mrunOp, h1, h2, h3, h4]

/-- Witness for C6: all four rejections at empty stores. -/
theorem missing_parent_rejects_without_mutation_witness :
    create_booking ⟨[], []⟩ sampleBookingCreate 0 =
      .error ("Room with ID " ++ toString (1 : Int) ++ " not found") ∧
    step ⟨[], []⟩ (.createBooking sampleBookingCreate 0) = (⟨[], []⟩ : HState) ∧
    update_booking ⟨[], []⟩ 1 sampleBookingCreate =
      .error ("Room with ID " ++ toString (1 : Int) ++ " not found") ∧
    step ⟨[], []⟩ (.updateBooking 1 sampleBookingCreate) = (⟨[], []⟩ : HState) ∧
    create_review ⟨[], []⟩ sampleReviewCreate 0 =
      .error ("Movie with ID " ++ toString (1 : Int) ++ " not found") ∧
    mstep ⟨[], []⟩ (.createReview sampleReviewCreate 0) = (⟨[], []⟩ : MState) ∧
    update_review ⟨[], []⟩ 1 sampleReviewCreate =
      .error ("Movie with ID " ++ toString (1 : Int) ++ " not found") ∧
    mstep ⟨[], []⟩ (.updateReview 1 sampleReviewCreate) = (⟨[], []⟩ : MState) :=
  missing_parent_rejects_without_mutation ⟨[], []⟩ sampleBookingCreate
    sampleBookingCreate 0 1 ⟨[], []⟩ sampleReviewCreate sampleReviewCreate 0 1
    (by decide) (by decide) (by decide) (by decide)

theorem avail_elem_iff (b : Booking) (room_id ci co : Int) (ex : Option Int) :
    (excludeMatches ex b.id || b.status == BookingStatus.cancelled ||
     b.room_id != room_id ||
     (decide (co ≤ b.check_in_date) || decide (ci ≥ b.check_out_date))) = true ↔
    (b.room_id = room_id → b.status ≠ BookingStatus.cancelled →
      (∀ e, ex = some e → e = 0 ∨ b.id ≠ e) →
      (co ≤ b.check_in_date ∨ ci ≥ b.check_out_date)) := by
  cases ex with
  | none => simp [excludeMatches]; tauto
  | some e =>
    by_cases he : e = 0 <;> by_cases hb : b.id = e <;>
      simp [excludeMatches, he, hb] <;> tauto

/-- Claim C2 (amended): `check_room_availability` returns true iff no
non-cancelled booking of the room — other than the one named by a *nonzero*
`exclude_booking_id` — overlaps `[check_in, check_out)` under the half-open
rule; touching intervals (checkout equal to another's check-in, and vice
versa) never block availability. -/
theorem check_room_availability_spec (bookings : List Booking)
    (room_id ci co : Int) (exclude : Option Int) (_hdates : ci < co) :
    (check_room_availability bookings room_id ci co exclude = true ↔
      specAvailableAmended bookings room_id ci co exclude) ∧
    (∀ b : Booking, b.check_in_date = co →
      check_room_availability [b] room_id ci co exclude = true) ∧
    (∀ b : Booking, b.check_out_date = ci →
      check_room_availability [b] room_id ci co exclude = true) := by
  refine ⟨?_, ?_, ?_⟩
  · rw [check_room_availability, List.all_eq_true, specAvailableAmended]
    constructor
    · intro hall b hb
      exact (avail_elem_iff b room_id ci co exclude).1 (hall b hb)
    · intro hs b hb
      exact (avail_elem_iff b room_id ci co exclude).2 (hs b hb)
  · intro b hb
    simp [check_room_availability, hb]
  · intro b hb
    simp [check_room_availability, hb]

/-- Witness for C2: the amended equivalence applied at a concrete state. -/
theorem check_room_availability_spec_witness :
    check_room_availability [bookingB] 1 0 2 none = true ↔
      specAvailableAmended [bookingB] 1 0 2 none :=
  (check_room_availability_spec [bookingB] 1 0 2 none (by decide)).1

/-- Counterexample for C2 as stated: with `exclude_booking_id = 0` and a
stored booking of id 0, the spec-side predicate (which skips the excluded
booking unconditionally) holds, yet the code reports the room unavailable —
Python's truthiness guard never skips an id-0 booking. -/
theorem check_room_availability_claim_counterexample :
    (0 : Int) < 2 ∧
    specAvailableClaimed [bookingIdZero] 1 0 2 (some 0) ∧
    check_room_availability [bookingIdZero] 1 0 2 (some 0) = false := by
  refine ⟨by decide, fun b hb hroom hstat hex => ?_, by decide⟩
  rw [List.mem_singleton] at hb
  subst hb
  exact absurd rfl hex

/-- Claim C9: a successful booking update (room found, dates available
excluding this booking, capacity respected) rewrites exactly the targeted
booking, preserving its `id`, `status` and `created_at`, replacing the
guest/date fields from the request, recomputing `total_price`, and leaving
every other booking untouched. -/
theorem update_booking_frame (rooms : List Room) (pre : List Booking)
    (b : Booking) (post : List Booking) (bc : BookingCreate) (room : Room)
    (hroom : get_room_by_id rooms bc.room_id = some room)
    (hpre : ∀ x ∈ pre, x.id ≠ b.id)
    (havail : check_room_availability (pre ++ b :: post) bc.room_id
      bc.check_in_date bc.check_out_date (some b.id) = true)
    (hcap : ¬ bc.num_guests > room.capacity) :
    update_booking ⟨rooms, pre ++ b :: post⟩ b.id bc =
      Except.ok ⟨rooms, pre ++
        { id := b.id
          room_id := bc.room_id
          guest_name := bc.guest_name
          guest_email := bc.guest_email
          check_in_date := bc.check_in_date
          check_out_date := bc.check_out_date
          num_guests := bc.num_guests
          total_price := calculate_total_price rooms bc.room_id
            bc.check_in_date bc.check_out_date
          status := b.status
          created_at := b.created_at
          special_requests := bc.special_requests } :: post⟩ := by
  have hany : (pre ++ b :: post).any (fun x => x.id == b.id) = true := by
    simp
  have hset := setFirstBookingById_append b.id
    (fun x : Booking =>
      { id := b.id
        room_id := bc.room_id
        guest_name := bc.guest_name
        guest_email := bc.guest_email
        check_in_date := bc.check_in_date
        check_out_date := bc.check_out_date
        num_guests := bc.num_guests
        total_price := calculate_total_price rooms bc.room_id
          bc.check_in_date bc.check_out_date
        status := x.status
        created_at := x.created_at
        special_requests := bc.special_requests })
    pre b post hpre rfl
  simp [update_booking, hroom, hany, havail, hcap, hset]

/-- Witness for C9: a successful concrete update of booking 3. -/
theorem update_booking_frame_witness :
    update_booking ⟨[sampleRoom], [] ++ bookingB :: []⟩ bookingB.id
        sampleBookingCreate =
      Except.ok ⟨[sampleRoom], [] ++
        { id := bookingB.id
          room_id := sampleBookingCreate.room_id
          guest_name := sampleBookingCreate.guest_name
          guest_email := sampleBookingCreate.guest_email
          check_in_date := sampleBookingCreate.check_in_date
          check_out_date := sampleBookingCreate.check_out_date
          num_guests := sampleBookingCreate.num_guests
          total_price := calculate_total_price [sampleRoom]
            sampleBookingCreate.room_id sampleBookingCreate.check_in_date
            sampleBookingCreate.check_out_date
          status := bookingB.status
          created_at := bookingB.created_at
          special_requests := sampleBookingCreate.special_requests } :: []⟩ :=
  update_booking_frame [sampleRoom] [] bookingB [] sampleBookingCreate
    sampleRoom (by decide) (by decide) (by decide) (by decide)

theorem compatB_iff (a b : Booking) :
    compatB a b = true ↔
      a.status = BookingStatus.cancelled ∨ b.status = BookingStatus.cancelled ∨
      a.room_id ≠ b.room_id ∨
      (a.check_out_date ≤ b.check_in_date ∨ a.check_in_date ≥ b.check_out_date) := by
  simp [compatB, datesDisjoint]
  tauto

theorem compatB_symm {a b : Booking} (h : compatB a b = true) :
    compatB b a = true := by
  rw [compatB_iff] at h ⊢
  rcases h with h | h | h | h | h
  · exact Or.inr (Or.inl h)
  · exact Or.inl h
  · exact Or.inr (Or.inr (Or.inl (Ne.symm h)))
  · exact Or.inr (Or.inr (Or.inr (Or.inr h)))
  · exact Or.inr (Or.inr (Or.inr (Or.inl h)))

theorem noOverlapB_cons {b : Booking} {bs : List Booking} :
    noOverlapB (b :: bs) = true ↔
      (∀ c ∈ bs, compatB b c = true) ∧ noOverlapB bs = true := by
  simp [noOverlapB, List.all_eq_true]

theorem idsNodupB_cons {x : Int} {xs : List Int} :
    idsNodupB (x :: xs) = true ↔ (∀ y ∈ xs, y ≠ x) ∧ idsNodupB xs = true := by
  simp [idsNodupB, List.all_eq_true]

theorem noOverlapB_append_singleton {bs : List Booking} {nb : Booking} :
    noOverlapB (bs ++ [nb]) = true ↔
      noOverlapB bs = true ∧ ∀ c ∈ bs, compatB c nb = true := by
  induction bs with
  | nil => simp [noOverlapB]
  | cons b bs ih =>
    rw [List.cons_append, noOverlapB_cons, ih, noOverlapB_cons]
    constructor
    · rintro ⟨hall, hno, hc⟩
      refine ⟨⟨fun c hc' => hall c (List.mem_append_left _ hc'), hno⟩, ?_⟩
      intro c hc'
      rcases List.mem_cons.1 hc' with rfl | h
      · exact hall nb (List.mem_append_right _ (List.mem_singleton_self _))
      · exact hc c h
    · rintro ⟨⟨hall, hno⟩, hc⟩
      refine ⟨?_, hno, fun c hc' => hc c (List.mem_cons_of_mem _ hc')⟩
      intro c hc'
      rcases List.mem_append.1 hc' with h | h
      · exact hall c h
      · rw [List.mem_singleton.1 h]
        exact hc b (List.mem_cons_self _ _)

theorem idsNodupB_append_singleton {xs : List Int} {n : Int} :
    idsNodupB (xs ++ [n]) = true ↔
      idsNodupB xs = true ∧ ∀ y ∈ xs, y ≠ n := by
  induction xs with
  | nil => simp [idsNodupB]
  | cons x xs ih =>
    rw [List.cons_append, idsNodupB_cons, ih, idsNodupB_cons]
    constructor
    · rintro ⟨hall, hnd, hy⟩
      refine ⟨⟨fun y hy' => hall y (List.mem_append_left _ hy'), hnd⟩, ?_⟩
      intro y hy'
      rcases List.mem_cons.1 hy' with rfl | h
      · intro he
        exact (hall n (List.mem_append_right _ (List.mem_singleton_self _))) he.symm
      · exact hy y h
    · rintro ⟨⟨hall, hnd⟩, hy⟩
      refine ⟨?_, hnd, fun y hy' => hy y (List.mem_cons_of_mem _ hy')⟩
      intro y hy'
      rcases List.mem_append.1 hy' with h | h
      · exact hall y h
      · rw [List.mem_singleton.1 h]
        exact fun he => (hy x (List.mem_cons_self _ _)) he.symm

theorem noOverlapB_pair {bs : List Booking} (h : noOverlapB bs = true) :
    ∀ a ∈ bs, ∀ c ∈ bs, a.id ≠ c.id → compatB a c = true := by
  induction bs with
  | nil => intro a ha; cases ha
  | cons b bs ih =>
    rw [noOverlapB_cons] at h
    intro a ha c hc hne
    rcases List.mem_cons.1 ha with rfl | ha' <;> rcases List.mem_cons.1 hc with rfl | hc'
    · exact absurd rfl hne
    · exact h.1 c hc'
    · exact compatB_symm (h.1 a ha')
    · exact ih h.2 a ha' c hc' hne

theorem mem_setFirstBookingById {bid : Int} {f : Booking → Booking} :
    ∀ {bs : List Booking} {x : Booking}, x ∈ setFirstBookingById bid f bs →
      x ∈ bs ∨ ∃ b ∈ bs, b.id = bid ∧ x = f b := by
  intro bs
  induction bs with
  | nil => intro x hx; cases hx
  | cons b bs ih =>
    intro x hx
    by_cases hb : b.id = bid
    · rw [setFirstBookingById, if_pos hb] at hx
      rcases List.mem_cons.1 hx with rfl | hx'
      · exact Or.inr ⟨b, List.mem_cons_self _ _, hb, rfl⟩
      · exact Or.inl (List.mem_cons_of_mem _ hx')
    · rw [setFirstBookingById, if_neg hb] at hx
      rcases List.mem_cons.1 hx with rfl | hx'
      · exact Or.inl (List.mem_cons_self _ _)
      · rcases ih hx' with h | ⟨b', hb', hid, rfl⟩
        · exact Or.inl (List.mem_cons_of_mem _ h)
        · exact Or.inr ⟨b', List.mem_cons_of_mem _ hb', hid, rfl⟩

theorem map_id_setFirstBookingById {bid : Int} {f : Booking → Booking}
    (hf : ∀ b : Booking, b.id = bid → (f b).id = b.id) :
    ∀ bs : List Booking,
      (setFirstBookingById bid f bs).map (fun x => x.id) =
        bs.map (fun x => x.id) := by
  intro bs
  induction bs with
  | nil => rfl
  | cons b bs ih =>
    by_cases hb : b.id = bid
    · simp [setFirstBookingById, hb, hf b hb]
    · simp [setFirstBookingById, hb, ih]

theorem idsNodupB_setFirst (bid : Int) (f : Booking → Booking)
    (bs : List Booking)
    (hf : ∀ b : Booking, b.id = bid → (f b).id = b.id)
    (h : idsNodupB (bs.map (fun x => x.id)) = true) :
    idsNodupB ((setFirstBookingById bid f bs).map (fun x => x.id)) = true := by
  rw [map_id_setFirstBookingById hf]
  exact h

theorem noOverlapB_setFirst {bid : Int} {f : Booking → Booking}
    {bs : List Booking}
    (hno : noOverlapB bs = true)
    (hnd : idsNodupB (bs.map Booking.id) = true)
    (hrepl : ∀ b ∈ bs, b.id = bid → ∀ c ∈ bs, c.id ≠ bid →
      compatB (f b) c = true) :
    noOverlapB (setFirstBookingById bid f bs) = true := by
  induction bs with
  | nil => rfl
  | cons b bs ih =>
    rw [noOverlapB_cons] at hno
    rw [List.map_cons, idsNodupB_cons] at hnd
    by_cases hb : b.id = bid
    · rw [setFirstBookingById, if_pos hb, noOverlapB_cons]
      refine ⟨?_, hno.2⟩
      intro c hc
      have hcid : c.id ≠ bid := by
        have h := hnd.1 c.id (List.mem_map_of_mem _ hc)
        rw [← hb]; exact h
      exact hrepl b (List.mem_cons_self _ _) hb c (List.mem_cons_of_mem _ hc) hcid
    · rw [setFirstBookingById, if_neg hb, noOverlapB_cons]
      constructor
      · intro c hc
        rcases mem_setFirstBookingById hc with hc' | ⟨b', hb', hid, rfl⟩
        · exact hno.1 c hc'
        · exact compatB_symm (hrepl b' (List.mem_cons_of_mem _ hb') hid b
            (List.mem_cons_self _ _) hb)
      · refine ih hno.2 hnd.2 ?_
        intro b' hb' hid c hc hcid
        exact hrepl b' (List.mem_cons_of_mem _ hb') hid c
          (List.mem_cons_of_mem _ hc) hcid

theorem cancelIfRoom_id (rid : Int) (b : Booking) :
    (cancelIfRoom rid b).id = b.id := by
  rw [cancelIfRoom]; split <;> rfl

theorem cancelIfRoom_room_id (rid : Int) (b : Booking) :
    (cancelIfRoom rid b).room_id = b.room_id := by
  rw [cancelIfRoom]; split <;> rfl

theorem cancelIfRoom_check_in (rid : Int) (b : Booking) :
    (cancelIfRoom rid b).check_in_date = b.check_in_date := by
  rw [cancelIfRoom]; split <;> rfl

theorem cancelIfRoom_check_out (rid : Int) (b : Booking) :
    (cancelIfRoom rid b).check_out_date = b.check_out_date := by
  rw [cancelIfRoom]; split <;> rfl

theorem cancelIfRoom_of_cancelled {rid : Int} {b : Booking}
    (h : b.status = BookingStatus.cancelled) : cancelIfRoom rid b = b := by
  rw [cancelIfRoom, if_neg]
  rintro ⟨-, hne⟩
  exact hne h

theorem compat_cancelIfRoom {rid : Int} {a c : Booking}
    (h : compatB a c = true) :
    compatB (cancelIfRoom rid a) (cancelIfRoom rid c) = true := by
  rw [compatB_iff] at h ⊢
  rcases h with h | h | h | h
  · exact Or.inl (by rw [cancelIfRoom_of_cancelled h]; exact h)
  · exact Or.inr (Or.inl (by rw [cancelIfRoom_of_cancelled h]; exact h))
  · exact Or.inr (Or.inr (Or.inl
      (by rw [cancelIfRoom_room_id, cancelIfRoom_room_id]; exact h)))
  · exact Or.inr (Or.inr (Or.inr
      (by rw [cancelIfRoom_check_in, cancelIfRoom_check_out,
        cancelIfRoom_check_in, cancelIfRoom_check_out]; exact h)))

theorem noOverlapB_map_cancel {rid : Int} {bs : List Booking}
    (h : noOverlapB bs = true) :
    noOverlapB (bs.map (cancelIfRoom rid)) = true := by
  induction bs with
  | nil => rfl
  | cons b bs ih =>
    rw [noOverlapB_cons] at h
    rw [List.map_cons, noOverlapB_cons]
    refine ⟨?_, ih h.2⟩
    intro c hc
    rcases List.mem_map.1 hc with ⟨c', hc', rfl⟩
    exact compat_cancelIfRoom (h.1 c' hc')

theorem map_id_map_cancel (rid : Int) (bs : List Booking) :
    (bs.map (cancelIfRoom rid)).map Booking.id = bs.map Booking.id := by
  induction bs with
  | nil => rfl
  | cons b bs ih => simp [cancelIfRoom_id, ih]

theorem le_foldl_max_init (xs : List Int) (a : Int) : a ≤ xs.foldl max a := by
  induction xs generalizing a with
  | nil => simp
  | cons x xs ih => exact le_trans (le_max_left a x) (ih (max a x))

theorem le_foldl_max_mem {xs : List Int} {x : Int} (h : x ∈ xs) :
    ∀ a : Int, x ≤ xs.foldl max a := by
  induction xs with
  | nil => cases h
  | cons y ys ih =>
    intro a
    rcases List.mem_cons.1 h with rfl | h'
    · exact le_trans (le_max_right a x) (le_foldl_max_init ys (max a x))
    · exact ih h' (max a y)

theorem le_maxId {l : List Int} {x : Int} (h : x ∈ l) : x ≤ maxId l := by
  cases l with
  | nil => cases h
  | cons y ys =>
    rcases List.mem_cons.1 h with rfl | h'
    · exact le_foldl_max_init ys x
    · exact le_foldl_max_mem h' y

theorem create_booking_preserves {st : HState} {bc : BookingCreate}
    {now : Int} {st' : HState} (hgood : goodStateB st = true)
    (hok : create_booking st bc now = Except.ok st') :
    goodStateB st' = true := by
  rw [create_booking] at hok
  split at hok
  · cases hok
  next room hroom =>
    split at hok
    · cases hok
    next hav' =>
      split at hok
      · cases hok
      next hcap =>
        injection hok with h
        subst h
        have hav : check_room_availability st.bookings bc.room_id
            bc.check_in_date bc.check_out_date none = true := by
          revert hav'
          cases check_room_availability st.bookings bc.room_id
            bc.check_in_date bc.check_out_date none <;> simp
        rw [goodStateB, Bool.and_eq_true] at hgood
        rw [goodStateB, Bool.and_eq_true]
        constructor
        · rw [noOverlapB_append_singleton]
          refine ⟨hgood.1, ?_⟩
          rw [check_room_availability, List.all_eq_true] at hav
          intro c hc
          have h := hav c hc
          simp [excludeMatches] at h
          rw [compatB_iff]
          simp only []
          tauto
        · rw [List.map_append]
          simp only [List.map_cons, List.map_nil]
          rw [idsNodupB_append_singleton]
          refine ⟨hgood.2, ?_⟩
          intro y hy he
          have hle : y ≤ maxId (st.bookings.map (·.id)) := le_maxId hy
          omega

theorem update_booking_preserves {st : HState} {bid : Int}
    {bc : BookingCreate} {st' : HState} (hgood : goodStateB st = true)
    (hok : update_booking st bid bc = Except.ok st') :
    goodStateB st' = true := by
  rw [update_booking] at hok
  split at hok
  · cases hok
  next room hroom =>
    split at hok
    case isFalse => cases hok
    case isTrue hany =>
      split at hok
      · cases hok
      next hav' =>
        split at hok
        · cases hok
        next hcap =>
          injection hok with h
          subst h
          have hav : check_room_availability st.bookings bc.room_id
              bc.check_in_date bc.check_out_date (some bid) = true := by
            revert hav'
            cases check_room_availability st.bookings bc.room_id
              bc.check_in_date bc.check_out_date (some bid) <;> simp
          rw [goodStateB, Bool.and_eq_true] at hgood
          rw [goodStateB, Bool.and_eq_true]
          constructor
          · apply noOverlapB_setFirst hgood.1 hgood.2
            intro b hb hbid c hc hcid
            rw [check_room_availability, List.all_eq_true] at hav
            have h := hav c hc
            simp [excludeMatches, hcid] at h
            rw [compatB_iff]
            simp only []
            tauto
          · exact idsNodupB_setFirst _ _ _ (fun b hb => hb.symm) hgood.2

theorem update_booking_status_preserves {st : HState} {bid : Int}
    {s : BookingStatus} {st' : HState}
    (hgood : goodStateB st = true)
    (hsafe : okStatusOpB st (.updateBookingStatus bid s) = true)
    (hok : update_booking_status st bid s = Except.ok st') :
    goodStateB st' = true := by
  rw [update_booking_status] at hok
  split at hok
  case isFalse => cases hok
  case isTrue hany =>
    injection hok with h
    subst h
    rw [goodStateB, Bool.and_eq_true] at hgood
    rw [goodStateB, Bool.and_eq_true]
    constructor
    · apply noOverlapB_setFirst hgood.1 hgood.2
      intro b hb hbid c hc hcid
      rw [okStatusOpB, Bool.or_eq_true] at hsafe
      rcases hsafe with hs | hall
      · rw [compatB_iff]
        exact Or.inl (by simpa using hs)
      · rw [List.all_eq_true] at hall
        have hbstat : b.status ≠ BookingStatus.cancelled := by
          have h := hall b hb
          simp [hbid] at h
          exact h
        have hbc : compatB b c = true := by
          apply noOverlapB_pair hgood.1 b hb c hc
          rw [hbid]
          exact Ne.symm hcid
        rw [compatB_iff] at hbc
        rw [compatB_iff]
        simp only []
        rcases hbc with h | h | h | h
        · exact absurd h hbstat
        · exact Or.inr (Or.inl h)
        · exact Or.inr (Or.inr (Or.inl h))
        · exact Or.inr (Or.inr (Or.inr h))
    · exact idsNodupB_setFirst _ _ _ (fun b hb => rfl) hgood.2

theorem delete_room_preserves {st : HState} {rid : Int} {st' : HState}
    (hgood : goodStateB st = true)
    (hok : delete_room st rid = Except.ok st') :
    goodStateB st' = true := by
  rw [delete_room] at hok
  split at hok
  · injection hok with h
    subst h
    rw [goodStateB, Bool.and_eq_true] at hgood
    rw [goodStateB, Bool.and_eq_true]
    exact ⟨noOverlapB_map_cancel hgood.1,
      by rw [map_id_map_cancel]; exact hgood.2⟩
  · cases hok

theorem step_preserves {st : HState} {op : Op}
    (hgood : goodStateB st = true) (hsafe : okStatusOpB st op = true) :
    goodStateB (step st op) = true := by
  cases op with
  | createBooking bc now =>
    cases hok : create_booking st bc now with
    | ok st2 => rw [step, runOp, hok]; exact create_booking_preserves hgood hok
    | error e => rw [step, runOp, hok]; exact hgood
  | updateBooking bid bc =>
    cases hok : update_booking st bid bc with
    | ok st2 => rw [step, runOp, hok]; exact update_booking_preserves hgood hok
    | error e => rw [step, runOp, hok]; exact hgood
  | updateBookingStatus bid s =>
    cases hok : update_booking_status st bid s with
    | ok st2 =>
      rw [step, runOp, hok]
      exact update_booking_status_preserves hgood hsafe hok
    | error e => rw [step, runOp, hok]; exact hgood
  | deleteRoom rid =>
    cases hok : delete_room st rid with
    | ok st2 => rw [step, runOp, hok]; exact delete_room_preserves hgood hok
    | error e => rw [step, runOp, hok]; exact hgood

/-- Claim C1 (amended): starting from a state in which no two distinct
non-cancelled bookings of the same room overlap and booking ids are
pairwise distinct, every sequence of booking-create, booking-update,
booking-status-update and room-delete operations preserves the invariant,
provided each status update either cancels or targets a booking that is not
currently cancelled (a status update reviving a cancelled booking can break
the invariant, as the counterexample shows). -/
theorem booking_overlap_invariant_preserved (st : HState) (ops : List Op)
    (hgood : goodStateB st = true) (hsafe : safeOpsB st ops = true) :
    goodStateB (execOps st ops) = true := by
  induction ops generalizing st with
  | nil => exact hgood
  | cons op ops ih =>
    rw [safeOpsB, Bool.and_eq_true] at hsafe
    rw [execOps]
    exact ih (step st op) (step_preserves hgood hsafe.1) hsafe.2

/-- Witness for C1: a concrete safe trace (a status change of an active
booking, then a room deletion) preserves the invariant. -/
theorem booking_overlap_invariant_preserved_witness :
    goodStateB ⟨[sampleRoom], [bookingA, bookingCancelled]⟩ = true ∧
    safeOpsB ⟨[sampleRoom], [bookingA, bookingCancelled]⟩
      [.updateBookingStatus 1 .confirmed, .deleteRoom 1] = true ∧
    goodStateB (execOps ⟨[sampleRoom], [bookingA, bookingCancelled]⟩
      [.updateBookingStatus 1 .confirmed, .deleteRoom 1]) = true :=
  ⟨by decide, by decide,
   booking_overlap_invariant_preserved ⟨[sampleRoom], [bookingA, bookingCancelled]⟩
     [.updateBookingStatus 1 .confirmed, .deleteRoom 1] (by decide) (by decide)⟩

/-- Counterexample for C1 as stated: from an invariant-satisfying state, the
status-update endpoint revives the cancelled booking 2 to `pending`; it then
overlaps the active booking 1 on the same room, so the invariant is false in
the resulting state. -/
theorem booking_overlap_invariant_counterexample :
    goodStateB ⟨[], [bookingA, bookingCancelled]⟩ = true ∧
    noOverlapB (step ⟨[], [bookingA, bookingCancelled]⟩
      (.updateBookingStatus 2 .pending)).bookings = false :=
  ⟨by decide, by decide⟩

theorem statsOKB_iff {reviews : List Review} {m : Movie} :
    statsOKB reviews m = true ↔
      m.rating = (calculate_movie_stats reviews m.id).1 ∧
      m.review_count = some (calculate_movie_stats reviews m.id).2 := by
  simp [statsOKB]

theorem calculate_movie_stats_congr {R R' : List Review} {mid : Int}
    (h : R.filter (fun r => r.movie_id == mid) =
         R'.filter (fun r => r.movie_id == mid)) :
    calculate_movie_stats R mid = calculate_movie_stats R' mid := by
  rw [calculate_movie_stats, calculate_movie_stats, h]

theorem statsOKB_congr {R R' : List Review} {m : Movie}
    (h : R.filter (fun r => r.movie_id == m.id) =
         R'.filter (fun r => r.movie_id == m.id))
    (hOK : statsOKB R m = true) : statsOKB R' m = true := by
  rw [statsOKB_iff] at hOK ⊢
  rw [← calculate_movie_stats_congr h]
  exact hOK

theorem filter_append_singleton_not (R : List Review) (r : Review)
    (p : Review → Bool) (h : p r = false) :
    (R ++ [r]).filter p = R.filter p := by
  rw [List.filter_append]
  simp [List.filter, h]

theorem filter_setFirstReviewById {R : List Review} {rid : Int}
    {f : Review → Review} {p : Review → Bool} {r0 : Review}
    (hfind : R.find? (fun r => r.id == rid) = some r0)
    (h1 : p r0 = false) (h2 : p (f r0) = false) :
    (setFirstReviewById rid f R).filter p = R.filter p := by
  induction R with
  | nil => cases hfind
  | cons r rs ih =>
    by_cases hr : r.id = rid
    · have hr0 : r0 = r := by
        rw [List.find?_cons_of_pos _ (by simp [hr])] at hfind
        exact (Option.some_inj.1 hfind).symm
      subst hr0
      rw [setFirstReviewById, if_pos hr]
      simp [List.filter_cons, h1, h2]
    · rw [List.find?_cons_of_neg _ (by simp [hr])] at hfind
      rw [setFirstReviewById, if_neg hr]
      cases hp : p r <;> simp [List.filter_cons, hp, ih hfind]

theorem filter_removeFirstReviewById {R : List Review} {rid : Int}
    {p : Review → Bool} {r0 : Review}
    (hfind : R.find? (fun r => r.id == rid) = some r0)
    (h1 : p r0 = false) :
    (removeFirstReviewById rid R).filter p = R.filter p := by
  induction R with
  | nil => cases hfind
  | cons r rs ih =>
    by_cases hr : r.id = rid
    · have hr0 : r0 = r := by
        rw [List.find?_cons_of_pos _ (by simp [hr])] at hfind
        exact (Option.some_inj.1 hfind).symm
      subst hr0
      rw [removeFirstReviewById, if_pos hr]
      simp [List.filter_cons, h1]
    · rw [List.find?_cons_of_neg _ (by simp [hr])] at hfind
      rw [removeFirstReviewById, if_neg hr]
      cases hp : p r <;> simp [List.filter_cons, hp, ih hfind]

theorem map_id_update_movie_stats (movies : List Movie) (R : List Review)
    (mid : Int) :
    (update_movie_stats movies R mid).map (fun m => m.id) =
      movies.map (fun m => m.id) := by
  induction movies with
  | nil => rfl
  | cons m ms ih =>
    by_cases hm : m.id = mid
    · simp [update_movie_stats, hm]
    · simp [update_movie_stats, hm, ih]

theorem update_movie_stats_statsOK_or {movies : List Movie}
    {R' : List Review} {mid : Int}
    (hnd : idsNodupB (movies.map (fun m => m.id)) = true) :
    ∀ m' ∈ update_movie_stats movies R' mid,
      statsOKB R' m' = true ∨ (m' ∈ movies ∧ m'.id ≠ mid) := by
  induction movies with
  | nil => intro m' hm'; cases hm'
  | cons m ms ih =>
    rw [List.map_cons, idsNodupB_cons] at hnd
    intro m' hm'
    by_cases hm : m.id = mid
    · rw [update_movie_stats, if_pos hm] at hm'
      rcases List.mem_cons.1 hm' with rfl | h'
      · left
        rw [statsOKB_iff]
        constructor <;> simp [hm]
      · right
        refine ⟨List.mem_cons_of_mem _ h', ?_⟩
        have hne := hnd.1 m'.id (List.mem_map_of_mem _ h')
        rw [← hm]
        exact hne
    · rw [update_movie_stats, if_neg hm] at hm'
      rcases List.mem_cons.1 hm' with rfl | h'
      · exact Or.inr ⟨List.mem_cons_self _ _, hm⟩
      · rcases ih hnd.2 m' h' with h | ⟨hmem, hne⟩
        · exact Or.inl h
        · exact Or.inr ⟨List.mem_cons_of_mem _ hmem, hne⟩

theorem create_review_preserves {st : MState} {rc : ReviewCreate} {now : Int}
    {st' : MState}
    (hinv : statsInvB st = true) (hnd : movieIdsNodupB st = true)
    (hok : create_review st rc now = Except.ok st') :
    statsInvB st' = true ∧ movieIdsNodupB st' = true := by
  rw [create_review] at hok
  split at hok
  · cases hok
  next mv hmv =>
    injection hok with h
    subst h
    rw [movieIdsNodupB] at hnd
    rw [statsInvB, List.all_eq_true] at hinv
    constructor
    · rw [statsInvB, List.all_eq_true]
      intro m' hm'
      rcases update_movie_stats_statsOK_or hnd m' hm' with h | ⟨hmem, hne⟩
      · exact h
      · apply statsOKB_congr ?_ (hinv m' hmem)
        symm
        apply filter_append_singleton_not
        exact beq_eq_false_iff_ne.2 (fun he => hne he.symm)
    · rw [movieIdsNodupB]
      show idsNodupB ((update_movie_stats st.movies _ rc.movie_id).map
        (fun m => m.id)) = true
      rw [map_id_update_movie_stats]
      exact hnd

theorem update_review_preserves {st : MState} {rid : Int} {rc : ReviewCreate}
    {st' : MState}
    (hinv : statsInvB st = true) (hnd : movieIdsNodupB st = true)
    (hok : update_review st rid rc = Except.ok st') :
    statsInvB st' = true ∧ movieIdsNodupB st' = true := by
  rw [update_review] at hok
  split at hok
  · cases hok
  next mv hmv =>
    split at hok
    · cases hok
    next r0 hfind =>
      injection hok with h
      subst h
      rw [movieIdsNodupB] at hnd
      rw [statsInvB, List.all_eq_true] at hinv
      have hfil : ∀ mid : Int, mid ≠ r0.movie_id → mid ≠ rc.movie_id →
          st.reviews.filter (fun r => r.movie_id == mid) =
            (setFirstReviewById rid (applyReviewUpdate rc)
              st.reviews).filter (fun r => r.movie_id == mid) := by
        intro mid h1 h2
        symm
        apply filter_setFirstReviewById hfind
        · exact beq_eq_false_iff_ne.2 (fun he => h1 he.symm)
        · exact beq_eq_false_iff_ne.2 (fun he => h2 he.symm)
      by_cases hch : r0.movie_id ≠ rc.movie_id
      · rw [if_pos hch]
        constructor
        · rw [statsInvB, List.all_eq_true]
          intro m' hm'
          have hnd1 : idsNodupB ((update_movie_stats st.movies
              (setFirstReviewById rid (applyReviewUpdate rc) st.reviews)
              r0.movie_id).map (fun m => m.id)) = true := by
            rw [map_id_update_movie_stats]
            exact hnd
          rcases update_movie_stats_statsOK_or hnd1 m' hm' with h | ⟨hmem1, hne2⟩
          · exact h
          · rcases update_movie_stats_statsOK_or hnd m' hmem1 with h | ⟨hmem, hne1⟩
            · exact h
            · exact statsOKB_congr (hfil m'.id hne1 hne2) (hinv m' hmem)
        · rw [movieIdsNodupB]
          show idsNodupB ((update_movie_stats (update_movie_stats st.movies _
            r0.movie_id) _ rc.movie_id).map (fun m => m.id)) = true
          rw [map_id_update_movie_stats, map_id_update_movie_stats]
          exact hnd
      · rw [if_neg hch]
        have hch' : r0.movie_id = rc.movie_id := not_not.1 hch
        constructor
        · rw [statsInvB, List.all_eq_true]
          intro m' hm'
          rcases update_movie_stats_statsOK_or hnd m' hm' with h | ⟨hmem, hne⟩
          · exact h
          · exact statsOKB_congr (hfil m'.id hne (hch' ▸ hne)) (hinv m' hmem)
        · rw [movieIdsNodupB]
          show idsNodupB ((update_movie_stats st.movies _ r0.movie_id).map
            (fun m => m.id)) = true
          rw [map_id_update_movie_stats]
          exact hnd

theorem delete_review_preserves {st : MState} {rid : Int} {st' : MState}
    (hinv : statsInvB st = true) (hnd : movieIdsNodupB st = true)
    (hok : delete_review st rid = Except.ok st') :
    statsInvB st' = true ∧ movieIdsNodupB st' = true := by
  rw [delete_review] at hok
  split at hok
  · cases hok
  next r0 hfind =>
    injection hok with h
    subst h
    rw [movieIdsNodupB] at hnd
    rw [statsInvB, List.all_eq_true] at hinv
    constructor
    · rw [statsInvB, List.all_eq_true]
      intro m' hm'
      rcases update_movie_stats_statsOK_or hnd m' hm' with h | ⟨hmem, hne⟩
      · exact h
      · apply statsOKB_congr ?_ (hinv m' hmem)
        symm
        apply filter_removeFirstReviewById hfind
        exact beq_eq_false_iff_ne.2 (fun he => hne he.symm)
    · rw [movieIdsNodupB]
      show idsNodupB ((update_movie_stats st.movies _ r0.movie_id).map
        (fun m => m.id)) = true
      rw [map_id_update_movie_stats]
      exact hnd

theorem mstep_preserves {st : MState} {op : MOp}
    (hinv : statsInvB st = true) (hnd : movieIdsNodupB st = true) :
    statsInvB (mstep st op) = true ∧ movieIdsNodupB (mstep st op) = true := by
  cases op with
  | createReview rc now =>
    cases hok : create_review st rc now with
    | ok st2 => rw [mstep, mrunOp, hok]; exact create_review_preserves hinv hnd hok
    | error e => rw [mstep, mrunOp, hok]; exact ⟨hinv, hnd⟩
  | updateReview rid rc =>
    cases hok : update_review st rid rc with
    | ok st2 => rw [mstep, mrunOp, hok]; exact update_review_preserves hinv hnd hok
    | error e => rw [mstep, mrunOp, hok]; exact ⟨hinv, hnd⟩
  | deleteReview rid =>
    cases hok : delete_review st rid with
    | ok st2 => rw [mstep, mrunOp, hok]; exact delete_review_preserves hinv hnd hok
    | error e => rw [mstep, mrunOp, hok]; exact ⟨hinv, hnd⟩

/-- Claim C3 (amended): starting from a state whose stored movie ids are
pairwise distinct and whose stored stats agree with the per-movie review
aggregates, every sequence of review create / update / delete operations
preserves the statistics invariant — including an update that moves a
review from movie M1 to M2, which refreshes both; with a duplicated movie
id the recomputation only rewrites the first matching record, so the
duplicate would keep stale stats (see the counterexample). -/
theorem movie_stats_invariant_preserved (st : MState) (ops : List MOp)
    (hinv : statsInvB st = true) (hnd : movieIdsNodupB st = true) :
    statsInvB (mexecOps st ops) = true := by
  suffices h : ∀ st : MState, statsInvB st = true → movieIdsNodupB st = true →
      statsInvB (mexecOps st ops) = true ∧
      movieIdsNodupB (mexecOps st ops) = true from (h st hinv hnd).1
  induction ops with
  | nil => exact fun st h1 h2 => ⟨h1, h2⟩
  | cons op ops ih =>
    intro st h1 h2
    rw [mexecOps]
    have hstep := @mstep_preserves st op h1 h2
    exact ih (mstep st op) hstep.1 hstep.2

/-- Witness for C3: a concrete trace (create a review for movie 1, then
delete review 1) from a two-movie state with distinct ids. -/
theorem movie_stats_invariant_preserved_witness :
    statsInvB ⟨[movieOne, movieTwo], []⟩ = true ∧
    movieIdsNodupB ⟨[movieOne, movieTwo], []⟩ = true ∧
    statsInvB (mexecOps ⟨[movieOne, movieTwo], []⟩
      [.createReview sampleReviewCreate 0, .deleteReview 1]) = true :=
  ⟨by decide, by decide,
   movie_stats_invariant_preserved ⟨[movieOne, movieTwo], []⟩
     [.createReview sampleReviewCreate 0, .deleteReview 1]
     (by decide) (by decide)⟩

/-- Counterexample for C3 as stated: two movie records share id 1 and both
carry correct (empty) stats; creating a review for movie 1 refreshes only
the first record, so the duplicate record — still an existing movie — ends
up with stored stats that disagree with the aggregate of its reviews. -/
theorem movie_stats_invariant_counterexample :
    statsInvB ⟨[movieOne, movieOneDup], []⟩ = true ∧
    movieOneDup ∈ (mstep ⟨[movieOne, movieOneDup], []⟩
      (.createReview sampleReviewCreate 0)).movies ∧
    statsOKB (mstep ⟨[movieOne, movieOneDup], []⟩
      (.createReview sampleReviewCreate 0)).reviews movieOneDup = false :=
  ⟨by decide, by decide, by decide⟩
